import Mathlib

/-!
Shallow embedding of the media-plan validator
(`src/media_plan_validator.py`, `src/utils/document_parser.py`,
`src/config/validation_config.py`) and proofs about it.

Documents are modelled after linearization: a document is the ordered list
of its non-empty stripped text elements (paragraphs first, then table cells
in row-major, table-major order), exactly the `all_text_elements` list the
source builds.  Python strings are modelled as Lean `String`s restricted to
the ASCII behaviour of `str.lower` / `str.strip`, which is all the source's
patterns exercise.  Python floats in the validator are modelled as `ℚ`.
-/

/-- ASCII whitespace set of Python's `str.strip` / `\s` (tab, newline,
vertical tab, form feed, carriage return, space). -/
def isPySpace (c : Char) : Bool :=
  c = ' ' || c = '\t' || c = '\n' || c = '\r' || c = '\x0b' || c = '\x0c'

/-- The 26 ASCII uppercase/lowercase letter pairs, used to model
Python's `str.lower` on the ASCII range. -/
def upperLowerPairs : List (Char × Char) :=
  [('A', 'a'), ('B', 'b'), ('C', 'c'), ('D', 'd'), ('E', 'e'), ('F', 'f'),
   ('G', 'g'), ('H', 'h'), ('I', 'i'), ('J', 'j'), ('K', 'k'), ('L', 'l'),
   ('M', 'm'), ('N', 'n'), ('O', 'o'), ('P', 'p'), ('Q', 'q'), ('R', 'r'),
   ('S', 's'), ('T', 't'), ('U', 'u'), ('V', 'v'), ('W', 'w'), ('X', 'x'),
   ('Y', 'y'), ('Z', 'z')]

/-- Lower-case one character (ASCII model of Python `str.lower`). -/
def lowerChar (c : Char) : Char :=
  ((upperLowerPairs.find? (fun kv => kv.1 = c)).map Prod.snd).getD c

/-- Model of Python `str.lower`. -/
def pyLower (s : String) : String :=
  ⟨s.data.map lowerChar⟩

/-- Strip leading and trailing whitespace from a character list. -/
def stripChars (l : List Char) : List Char :=
  List.rdropWhile isPySpace (l.dropWhile isPySpace)

/-- Model of Python `str.strip`. -/
def pyStrip (s : String) : String :=
  ⟨stripChars s.data⟩

/-- Model of Python's substring test `needle in hay`. -/
def containsSub (needle hay : String) : Bool :=
  hay.data.tails.any (fun t => needle.data.isPrefixOf t)

/-- One token of a (restricted) regular expression: a literal string or
`\s*` (zero or more whitespace characters).  The section-boundary regexes of
the source are all of this shape. -/
inductive RTok where
  | lit (s : String)
  | wsStar
deriving DecidableEq

/-- Match a token list at the beginning of a character list.  Because every
literal in the catalog starts with a non-whitespace character, the greedy
`\s*` of the source regexes needs no backtracking. -/
def matchToksAt : List RTok → List Char → Bool
  | [], _ => true
  | .lit s :: rest, cs => s.data.isPrefixOf cs && matchToksAt rest (cs.drop s.length)
  | .wsStar :: rest, cs => matchToksAt rest (cs.dropWhile isPySpace)

/-- Model of `re.search`: the token list matches at some position. -/
def reSearch (toks : List RTok) (cs : List Char) : Bool :=
  cs.tails.any (matchToksAt toks)

/-- `STRATEGY_EXPLAINER_PATTERNS` from `validation_config.py`:
`2\.\s*strategy\s*explainer`, `2\)\s*strategy\s*explainer`,
`strategy\s*explainer\s*:`, `2\s*-\s*strategy\s*explainer`. -/
def STRATEGY_EXPLAINER_PATTERNS : List (List RTok) :=
  [[.lit "2.", .wsStar, .lit "strategy", .wsStar, .lit "explainer"],
   [.lit "2)", .wsStar, .lit "strategy", .wsStar, .lit "explainer"],
   [.lit "strategy", .wsStar, .lit "explainer", .wsStar, .lit ":"],
   [.lit "2", .wsStar, .lit "-", .wsStar, .lit "strategy", .wsStar, .lit "explainer"]]

/-- An element matches one of the strategy-explainer patterns
(`re.search(pattern, text_lower)` in the first pass of
`extract_currency_amounts_from_text`). -/
def isStrategyHeading (text : String) : Bool :=
  STRATEGY_EXPLAINER_PATTERNS.any (fun p => reSearch p (pyLower text).data)

/-- An element is a creative-checklist marker:
`'creative' in text_lower and ('checklist' in text_lower or 'requirements' in text_lower)`. -/
def isChecklistHeading (text : String) : Bool :=
  containsSub "creative" (pyLower text) &&
    (containsSub "checklist" (pyLower text) || containsSub "requirements" (pyLower text))

/-- The first pass of `extract_currency_amounts_from_text` (lines 181-197 of
`document_parser.py`): walk the elements with the running index `i`, record
`strategy_explainer_index := i` whenever a strategy pattern matches, and on
the first checklist marker record `creative_checklist_index := i` and break
out of the loop. -/
def findBoundaries : List String → Nat → Option Nat → Option Nat × Option Nat
  | [], _, sIdx => (sIdx, none)
  | t :: rest, i, sIdx =>
    let sIdx' := if isStrategyHeading t then some i else sIdx
    if isChecklistHeading t then (sIdx', some i)
    else findBoundaries rest (i + 1) sIdx'

/-- Section boundary detection over the linearized element list. -/
def detectBoundaries (elems : List String) : Option Nat × Option Nat :=
  findBoundaries elems 0 none

/-- The eligibility decision of the second pass (lines 203-218 of
`document_parser.py`): `should_process` for the element at position `i`. -/
def shouldProcess (sIdx cIdx : Option Nat) (i : Nat) : Bool :=
  match sIdx with
  | none => true
  | some s =>
    if i < s then true
    else
      match cIdx with
      | some c => decide (c ≤ i)
      | none => false

/-- The second pass of `extract_currency_amounts_from_text`: every eligible
element contributes its currency mentions, in element order.  The per-element
mention extraction (currency regexes, numeric parsing and context tagging,
lines 220-263) is abstracted as `mentionsAt i`, the mention list produced by
the element at position `i`; the zone filter under scrutiny is independent
of it. -/
def extract_currency_amounts_from_text (mentionsAt : Nat → List α) (elems : List String) :
    List α :=
  let b := detectBoundaries elems
  ((List.range elems.length).filter (fun i => shouldProcess b.1 b.2 i)).flatMap mentionsAt

/-- The eligibility rule in the spec's words: the strategy index is absent,
or `i` is strictly before it, or the checklist index is present and `i` is at
or after it. -/
def eligibleSpec (sIdx cIdx : Option Nat) (i : Nat) : Prop :=
  sIdx = none ∨ (∃ s, sIdx = some s ∧ i < s) ∨ (∃ c, cIdx = some c ∧ c ≤ i)

instance (sIdx cIdx : Option Nat) (i : Nat) : Decidable (eligibleSpec sIdx cIdx i) := by
  unfold eligibleSpec
  infer_instance

/-- Index of the first checklist marker in the element list. -/
def firstChecklistIdx : List String → Option Nat
  | [] => none
  | t :: rest =>
    if isChecklistHeading t then some 0 else (firstChecklistIdx rest).map (· + 1)

/-- Number of elements the boundary scan actually examines: everything up to
and including the first checklist marker, or the whole list if there is
none. -/
def scanStop (l : List String) : Nat :=
  match firstChecklistIdx l with
  | some c => c + 1
  | none => l.length

/-- Index of the last strategy-pattern match among the scanned elements. -/
def lastStrategyIdx (l : List String) : Option Nat :=
  (((l.take (scanStop l)).enum).filterMap
    (fun p => if isStrategyHeading p.2 then some p.1 else none)).getLast?

/-- Result status vocabulary of `ValidationResult.status`. -/
inductive Status where
  | pass
  | warning
  | fail
  | skip
deriving DecidableEq, Repr

/-- The fields of a `CurrencyMention` the budget check consumes
(`amount`, `near_objective`, `near_impressions`). -/
structure Mention where
  amount : ℚ
  near_objective : Bool
  near_impressions : Bool
deriving DecidableEq

/-- Status computed by `MediaPlanValidator.validate_budget_from_text`
(lines 79-144 of `media_plan_validator.py`) from the brief's budget, the
validator's tolerance, and the extracted currency data. -/
def validate_budget_from_text (expected_budget tolerance : ℚ) (currency_data : List Mention) :
    Status :=
  if currency_data.isEmpty then .fail
  else
    let inRange : Mention → Bool := fun m =>
      decide (100 ≤ m.amount) && decide (m.amount ≤ expected_budget * 2)
    let likely :=
      currency_data.filter (fun m => (m.near_objective || m.near_impressions) && inRange m)
    let likely_budgets := if likely.isEmpty then currency_data.filter inRange else likely
    if likely_budgets.isEmpty then .warning
    else
      let total_found := (likely_budgets.map Mention.amount).sum
      if |expected_budget - total_found| ≤ expected_budget * tolerance then .pass
      else .fail

/-- `CHANNEL_NORMALIZATIONS` from `validation_config.py`. -/
def CHANNEL_NORMALIZATIONS : List (String × String) :=
  [("facebook", "meta (facebook)"),
   ("instagram", "meta (instagram)"),
   ("meta combined", "meta (combined)"),
   ("meta (fb)", "meta (facebook)"),
   ("meta (ig)", "meta (instagram)"),
   ("google search", "google search"),
   ("google display network", "google display"),
   ("google responsive display", "google display"),
   ("youtube", "youtube ads"),
   ("tiktok", "tiktok ads"),
   ("microsoft search", "microsoft search"),
   ("microsoft audience network", "microsoft audience")]

/-- `normalize_channel_name` from `document_parser.py`: lower-case, strip,
then table lookup with identity fallback. -/
def normalize_channel_name (channel : String) : String :=
  let c := pyStrip (pyLower channel)
  ((CHANNEL_NORMALIZATIONS.find? (fun kv => kv.1 = c)).map Prod.snd).getD c

/-- Status computed by `MediaPlanValidator.validate_channel_consistency`
(lines 181-260 of `media_plan_validator.py`) from the two channel lists
(plan-table channels and strategy-narrative channels).  The source builds
`set(normalized_plan)` and `set(normalized_strategy)` and passes iff
`len(matching) == len(plan_set) == len(strategy_set)`. -/
def validate_channel_consistency (plan_channels strategy_channels : List String) : Status :=
  if plan_channels.isEmpty then .warning
  else if strategy_channels.isEmpty then .warning
  else
    let plan_set := (plan_channels.map normalize_channel_name).toFinset
    let strategy_set := (strategy_channels.map normalize_channel_name).toFinset
    let matching := plan_set ∩ strategy_set
    if matching.card = plan_set.card ∧ plan_set.card = strategy_set.card then .pass
    else .fail

/-- A parsed `YYYY-MM-DD` date. -/
structure Date where
  year : Nat
  month : Nat
  day : Nat
deriving DecidableEq

/-- Gregorian leap-year test. -/
def isLeap (y : Nat) : Bool :=
  (y % 4 = 0 && y % 100 ≠ 0) || y % 400 = 0

/-- Length of month `m` of year `y`. -/
def monthLength (y m : Nat) : Nat :=
  if m = 2 then (if isLeap y then 29 else 28)
  else if m = 4 || m = 6 || m = 9 || m = 11 then 30
  else 31

/-- Days in year `y` strictly before month `m`. -/
def daysBeforeMonth (y m : Nat) : Nat :=
  ((List.range (m - 1)).map (fun k => monthLength y (k + 1))).sum

/-- Days strictly before year `y` (proleptic Gregorian, year 1 starts at 1). -/
def daysBeforeYear (y : Nat) : Nat :=
  365 * (y - 1) + (y - 1) / 4 - (y - 1) / 100 + (y - 1) / 400

/-- Rata-die ordinal of a date; differences agree with
`(datetime - datetime).days`. -/
def toOrdinal (d : Date) : Nat :=
  daysBeforeYear d.year + daysBeforeMonth d.year d.month + d.day

/-- `(end_dt - start_dt).days + 1`, the inclusive day count of the source. -/
def inclusiveDuration (s e : Date) : Int :=
  (toOrdinal e : Int) - (toOrdinal s : Int) + 1

/-- `DEFAULT_DURATION_TOLERANCE_DAYS` from `validation_config.py`. -/
def DEFAULT_DURATION_TOLERANCE_DAYS : Int := 1

/-- Status computed by `MediaPlanValidator.validate_duration` (lines 149-179
of `media_plan_validator.py`); the extracted dates arrive already parsed,
`none` standing for a date the extractor did not find. -/
def validate_duration (expected_duration : Int) (start_date end_date : Option Date) : Status :=
  match start_date, end_date with
  | some s, some e =>
    let actual_duration := inclusiveDuration s e
    if actual_duration = expected_duration then .pass
    else if |actual_duration - expected_duration| ≤ DEFAULT_DURATION_TOLERANCE_DAYS then .pass
    else .fail
  | _, _ => .warning

/-- Result of one `re.search` with capture groups, as the date extractor
uses it: either one captured group or two. -/
inductive MatchRes where
  | one (g1 : String)
  | two (g1 g2 : String)

/-- `match.group(1)`. -/
def MatchRes.first : MatchRes → String
  | .one g => g
  | .two g _ => g

/-- The `date_patterns` list of
`DocumentSectionDetector.extract_campaign_dates`, as the literal regex
strings the source tests with `'start' in pattern` / `'end' in pattern`. -/
def date_patterns : List String :=
  ["campaign\\s+start.*?(\\d{4}-\\d{2}-\\d{2})",
   "start\\s+date.*?(\\d{4}-\\d{2}-\\d{2})",
   "campaign\\s+end.*?(\\d{4}-\\d{2}-\\d{2})",
   "end\\s+date.*?(\\d{4}-\\d{2}-\\d{2})",
   "duration.*?(\\d{4}-\\d{2}-\\d{2}).*?to.*?(\\d{4}-\\d{2}-\\d{2})",
   "(\\d{4}-\\d{2}-\\d{2}).*?to.*?(\\d{4}-\\d{2}-\\d{2})"]

/-- Loop body of `extract_campaign_dates` for one pattern on one (lowered)
paragraph: on a match, assign by pattern identity, else keep the state.
`search pat text` abstracts `re.search(pat, text, re.IGNORECASE)`. -/
def dateStep (search : String → String → Option MatchRes) (pat text : String)
    (st : Option String × Option String) : Option String × Option String :=
  match search pat text with
  | none => st
  | some r =>
    if containsSub "start" pat then (some r.first, st.2)
    else if containsSub "end" pat then (st.1, some r.first)
    else
      match r with
      | .two a b => (some a, some b)
      | .one _ => st

/-- `DocumentSectionDetector.extract_campaign_dates` (lines 17-45 of
`document_parser.py`): fold every pattern over every paragraph in order,
with no early exit. -/
def extract_campaign_dates (search : String → String → Option MatchRes)
    (paragraphs : List String) : Option String × Option String :=
  paragraphs.foldl
    (fun st text => date_patterns.foldl (fun st pat => dateStep search pat (pyLower text) st) st)
    (none, none)

/-- The (start, end) assignment a single (pattern, lowered paragraph) pair
produces, viewed in isolation. -/
def dateAssign (search : String → String → Option MatchRes) (pat text : String) :
    Option String × Option String :=
  match search pat text with
  | none => (none, none)
  | some r =>
    if containsSub "start" pat then (some r.first, none)
    else if containsSub "end" pat then (none, some r.first)
    else
      match r with
      | .two a b => (some a, some b)
      | .one _ => (none, none)

/-- All (pattern, lowered paragraph) pairs in the order the extractor scans
them: paragraphs outer, patterns inner. -/
def dateScanPairs (paragraphs : List String) : List (String × String) :=
  paragraphs.flatMap (fun t => date_patterns.map (fun p => (p, pyLower t)))

/-- Python `text.startswith(g)` for the four checklist glyphs. -/
def startsWithGlyph (t : String) : Bool :=
  "✓".data.isPrefixOf t.data || "✔".data.isPrefixOf t.data ||
    "•".data.isPrefixOf t.data || "-".data.isPrefixOf t.data

/-- `re.sub(r'^[✓✔•\-\s]+', '', text).strip()`. -/
def stripGlyphs (t : String) : String :=
  pyStrip ⟨t.data.dropWhile (fun c => c = '✓' || c = '✔' || c = '•' || c = '-' || isPySpace c)⟩

/-- Python `text[0].isupper()` on a non-empty string (ASCII model). -/
def firstIsUpper (t : String) : Bool :=
  match t.data with
  | [] => false
  | c :: _ => (upperLowerPairs.find? (fun kv => kv.1 = c)).isSome

/-- The new-section test of `extract_creative_checklist` (line 102 of
`document_parser.py`): non-empty, starts with an uppercase letter, contains
a colon, does not mention "creative". -/
def isSectionBreak (text : String) : Bool :=
  !text.isEmpty && firstIsUpper text && containsSub ":" text &&
    !containsSub "creative" (pyLower text)

/-- `DocumentSectionDetector.extract_creative_checklist` (lines 87-111 of
`document_parser.py`), as a recursion over the paragraphs carrying the
`in_checklist` flag; the section-break branch returns `[]` because the
source `break`s out of the loop there. -/
def extract_creative_checklist_from (inChecklist : Bool) : List String → List String
  | [] => []
  | p :: rest =>
    let text := pyStrip p
    if isChecklistHeading text then extract_creative_checklist_from true rest
    else if inChecklist && isSectionBreak text then []
    else if inChecklist && startsWithGlyph text then
      let item := stripGlyphs text
      if item.isEmpty then extract_creative_checklist_from inChecklist rest
      else item :: extract_creative_checklist_from inChecklist rest
    else extract_creative_checklist_from inChecklist rest

/-- Entry point of the checklist extractor: the flag starts OFF. -/
def extract_creative_checklist (paragraphs : List String) : List String :=
  extract_creative_checklist_from false paragraphs

/-- The `creative_assets` record of the brief. -/
structure CreativeAssets where
  has_assets : Bool
  description : String

/-- Asset types inferred from the (lowered) description by substring search,
in source order: image, video, banner, carousel. -/
def inferAssetTypes (description : String) : List String :=
  (if containsSub "image" description then ["image"] else []) ++
    (if containsSub "video" description then ["video"] else []) ++
    (if containsSub "banner" description then ["banner"] else []) ++
    (if containsSub "carousel" description then ["carousel"] else [])

/-- Status computed by `MediaPlanValidator.validate_creative_assets`
(lines 277-339 of `media_plan_validator.py`). -/
def validate_creative_assets (brief : CreativeAssets) (creative_checklist : List String) :
    Status :=
  let description := pyLower brief.description
  if !brief.has_assets then
    if !creative_checklist.isEmpty then .warning else .pass
  else if creative_checklist.isEmpty then .warning
  else
    let asset_types := inferAssetTypes description
    let checklist_text := pyLower (String.intercalate " " creative_checklist)
    let missing_types := asset_types.filter (fun t => !containsSub t checklist_text)
    if missing_types.isEmpty then .pass else .warning

/-- Overall-status aggregation of `MediaPlanValidator.validate_media_plan`
(lines 421-428 of `media_plan_validator.py`). -/
def overall_status (statuses : List Status) : Status :=
  if Status.fail ∈ statuses then .fail
  else if Status.warning ∈ statuses then .warning
  else .pass

theorem inter_card_eq_iff_eq {A B : Finset String} :
    ((A ∩ B).card = A.card ∧ A.card = B.card) ↔ A = B := by
  constructor
  · rintro ⟨h1, h2⟩
    have h3 : A ∩ B = A :=
      Finset.eq_of_subset_of_card_le Finset.inter_subset_left (le_of_eq h1.symm)
    have hAB : A ⊆ B := Finset.inter_eq_left.mp h3
    exact Finset.eq_of_subset_of_card_le hAB (le_of_eq h2.symm)
  · rintro rfl
    simp

/-- C3, counterexample: with plan channels `["facebook", "meta (fb)"]` and
strategy channels `["facebook"]` the normalized sets are equal but the raw
list lengths differ (2 vs 1), yet the check returns `pass` — the
pre-normalization counts do not gate the status, contrary to the claim. -/
theorem channel_count_cex :
    validate_channel_consistency ["facebook", "meta (fb)"] ["facebook"] = .pass ∧
    ((["facebook", "meta (fb)"] : List String).map normalize_channel_name).toFinset =
      ((["facebook"] : List String).map normalize_channel_name).toFinset ∧
    (["facebook", "meta (fb)"] : List String).length ≠ (["facebook"] : List String).length := by
  decide

/-- C3, amended: for non-empty channel lists the check returns `pass` exactly
when the normalized channel sets are equal, and `fail` exactly when they are
not; the pre-normalization counts do not influence the status. -/
theorem channel_pass_iff_sets_eq (plan strat : List String) (hp : plan ≠ []) (hs : strat ≠ []) :
    (validate_channel_consistency plan strat = .pass ↔
      (plan.map normalize_channel_name).toFinset = (strat.map normalize_channel_name).toFinset) ∧
    (validate_channel_consistency plan strat = .fail ↔
      (plan.map normalize_channel_name).toFinset ≠ (strat.map normalize_channel_name).toFinset) := by
  unfold validate_channel_consistency
  rw [if_neg (by simpa using hp), if_neg (by simpa using hs)]
  dsimp only
  split_ifs with h
  · rw [inter_card_eq_iff_eq] at h
    simp [h]
  · rw [inter_card_eq_iff_eq] at h
    simp [h]

/-- Witness for `channel_pass_iff_sets_eq` at concrete non-empty lists. -/
theorem channel_pass_iff_sets_eq_witness :
    (validate_channel_consistency ["facebook"] ["meta (fb)"] = .pass ↔
      ((["facebook"] : List String).map normalize_channel_name).toFinset =
        ((["meta (fb)"] : List String).map normalize_channel_name).toFinset) ∧
    (validate_channel_consistency ["facebook"] ["meta (fb)"] = .fail ↔
      ((["facebook"] : List String).map normalize_channel_name).toFinset ≠
        ((["meta (fb)"] : List String).map normalize_channel_name).toFinset) :=
  channel_pass_iff_sets_eq ["facebook"] ["meta (fb)"] (by decide) (by decide)

/-- C4, counterexample: with an empty currency-mention list the budget check
returns `fail`, not `warning` (brief budget 1000, tolerance 5%). -/
theorem budget_no_mentions_cex :
    validate_budget_from_text 1000 (1 / 20) [] = .fail ∧ Status.fail ≠ Status.warning := by
  decide

/-- C4, amended: for every brief and tolerance, if the currency extractor
finds no currency mentions at all in the document, the budget check returns
status `fail`; the `warning` status is reserved for the case where mentions
exist but none qualifies as a budget candidate. -/
theorem budget_no_mentions_fail (expected_budget tolerance : ℚ) :
    validate_budget_from_text expected_budget tolerance [] = .fail :=
  rfl

/-- C5: the overall status is `fail` iff some check failed, `warning` iff
none failed and some warned, and `pass` iff none failed or warned, so `skip`
never raises the severity; in particular four passes plus an AI-strategy
`skip` aggregate to `pass`. -/
theorem overall_status_aggregation (statuses : List Status) :
    (overall_status statuses = .fail ↔ Status.fail ∈ statuses) ∧
    (overall_status statuses = .warning ↔
      (Status.fail ∉ statuses ∧ Status.warning ∈ statuses)) ∧
    (overall_status statuses = .pass ↔
      (Status.fail ∉ statuses ∧ Status.warning ∉ statuses)) ∧
    overall_status [.pass, .pass, .pass, .pass, .skip] = .pass := by
  refine ⟨?_, ?_, ?_, by decide⟩ <;>
    · unfold overall_status
      split_ifs with h1 h2 <;> simp_all

/-- C6: the duration check returns `warning` when either date is missing;
with both dates present it returns `pass` exactly when the inclusive day
count differs from the brief's duration by at most 1 and `fail` otherwise;
start 2024-01-01 and end 2024-01-29 against an expected 30 days give an
actual duration of 29 and `pass`. -/
theorem duration_check_spec (n : Int) (s e : Date) :
    validate_duration n none none = .warning ∧
    validate_duration n (some s) none = .warning ∧
    validate_duration n none (some e) = .warning ∧
    (validate_duration n (some s) (some e) = .pass ↔ |inclusiveDuration s e - n| ≤ 1) ∧
    (validate_duration n (some s) (some e) = .fail ↔ 1 < |inclusiveDuration s e - n|) ∧
    inclusiveDuration ⟨2024, 1, 1⟩ ⟨2024, 1, 29⟩ = 29 ∧
    validate_duration 30 (some ⟨2024, 1, 1⟩) (some ⟨2024, 1, 29⟩) = .pass := by
  refine ⟨rfl, rfl, rfl, ?_, ?_, by decide, by decide⟩ <;>
    · unfold validate_duration DEFAULT_DURATION_TOLERANCE_DAYS
      dsimp only
      split_ifs with h1 h2 <;> simp_all

/-- C8, counterexample: after the checklist turns ON and a section-heading
paragraph is hit, the scan terminates outright, so the items of a second
creative-checklist section later in the document are not collected. -/
theorem checklist_break_cex :
    extract_creative_checklist
        ["Creative Checklist:", "✓ item one", "Next Steps: review",
         "Creative Checklist:", "✓ item two"] = ["item one"] ∧
    "item two" ∉ extract_creative_checklist
        ["Creative Checklist:", "✓ item one", "Next Steps: review",
         "Creative Checklist:", "✓ item two"] := by
  decide

/-- C8, amended: encountering a paragraph that starts with an uppercase
letter, contains a colon and does not mention "creative" terminates the scan
entirely (the source `break`s), so whatever follows — including a second
creative-checklist heading and its items — contributes nothing. -/
theorem checklist_break_terminates (rest : List String) :
    extract_creative_checklist
        ("Creative Checklist:" :: "✓ item one" :: "Next Steps: review" :: rest) =
      ["item one"] :=
  rfl

/-- C9, counterexample: a brief with `has_assets = false` and empty
description against a non-empty checklist yields `warning`, although the
claim's pass condition (every inferred asset type — here none — appears in
the checklist text) is satisfied, so the claimed "exactly when" fails. -/
theorem creative_assets_pass_cex :
    validate_creative_assets ⟨false, ""⟩ ["x"] = .warning ∧
    (∀ t ∈ inferAssetTypes (pyLower ""),
      containsSub t (pyLower (String.intercalate " " ["x"])) = true) ∧
    Status.warning ≠ Status.pass := by
  decide

/-- C9, amended: the creative assets check returns only `pass` or `warning`,
never `fail`; it returns `pass` exactly when either the brief declares no
assets and the checklist is empty, or the brief declares assets, the
checklist is non-empty, and every inferred asset type occurs as a substring
of the joined lower-cased checklist text. -/
theorem creative_assets_pass_iff (brief : CreativeAssets) (cl : List String) :
    (validate_creative_assets brief cl = .pass ∨
      validate_creative_assets brief cl = .warning) ∧
    (validate_creative_assets brief cl = .pass ↔
      ((brief.has_assets = false ∧ cl = []) ∨
       (brief.has_assets = true ∧ cl ≠ [] ∧
        ∀ t ∈ inferAssetTypes (pyLower brief.description),
          containsSub t (pyLower (String.intercalate " " cl)) = true))) := by
  unfold validate_creative_assets
  dsimp only
  split_ifs with h1 h2 h3 h4 <;>
    simp_all [List.isEmpty_iff, List.filter_eq_nil_iff]

theorem shouldProcess_iff (sIdx cIdx : Option Nat) (i : Nat) :
    shouldProcess sIdx cIdx i = true ↔ eligibleSpec sIdx cIdx i := by
  cases sIdx <;> cases cIdx <;> simp [shouldProcess, eligibleSpec]

theorem flatMap_congr_mem {α : Type} {l : List Nat} {f g : Nat → List α}
    (h : ∀ a ∈ l, f a = g a) : l.flatMap f = l.flatMap g := by
  induction l with
  | nil => rfl
  | cons a l ih =>
    simp only [List.flatMap_cons]
    rw [h a (by simp), ih (fun b hb => h b (by simp [hb]))]

/-- C1: over the detected boundaries, an element is processed by the
currency extractor iff the strategy index is absent, or its position is
strictly before the strategy index, or the checklist index is present and
its position is at or after it; consequently an element strictly between the
two indices contributes no mention whatever its content — replacing its
mention list by the empty list leaves the extraction unchanged. -/
theorem currency_zone_eligibility {α : Type} (elems : List String) (mentionsAt : Nat → List α)
    (i si ci : Nat)
    (hs : (detectBoundaries elems).1 = some si) (hc : (detectBoundaries elems).2 = some ci)
    (hlo : si < i) (hhi : i < ci) :
    (∀ j, shouldProcess (detectBoundaries elems).1 (detectBoundaries elems).2 j = true ↔
      eligibleSpec (detectBoundaries elems).1 (detectBoundaries elems).2 j) ∧
    extract_currency_amounts_from_text mentionsAt elems =
      extract_currency_amounts_from_text (Function.update mentionsAt i []) elems := by
  refine ⟨fun j => shouldProcess_iff _ _ j, ?_⟩
  unfold extract_currency_amounts_from_text
  apply flatMap_congr_mem
  intro j hj
  have hji : j ≠ i := by
    intro hji
    subst hji
    have := (List.mem_filter.mp hj).2
    rw [hs, hc] at this
    simp only [shouldProcess] at this
    rw [if_neg (by omega)] at this
    simp at this
    omega
  exact (Function.update_noteq hji _ _).symm

/-- Witness for `currency_zone_eligibility` on a concrete document:
strategy heading at 0, checklist marker at 2, and element 1 strictly
between them. -/
theorem currency_zone_eligibility_witness :
    (∀ j, shouldProcess
        (detectBoundaries ["strategy explainer:", "budget line", "creative checklist"]).1
        (detectBoundaries ["strategy explainer:", "budget line", "creative checklist"]).2 j =
          true ↔
      eligibleSpec
        (detectBoundaries ["strategy explainer:", "budget line", "creative checklist"]).1
        (detectBoundaries ["strategy explainer:", "budget line", "creative checklist"]).2 j) ∧
    extract_currency_amounts_from_text (fun j => [j])
        ["strategy explainer:", "budget line", "creative checklist"] =
      extract_currency_amounts_from_text (Function.update (fun j => [j]) 1 [])
        ["strategy explainer:", "budget line", "creative checklist"] :=
  currency_zone_eligibility ["strategy explainer:", "budget line", "creative checklist"]
    (fun j => [j]) 1 0 2 (by decide) (by decide) (by decide) (by decide)

theorem optOr_none (a : Option α) : a.or none = a := by
  cases a <;> rfl

theorem optOr_assoc (a b c : Option α) : (a.or b).or c = a.or (b.or c) := by
  cases a <;> rfl

theorem getLast?_cons_or (a : α) (l : List α) : (a :: l).getLast? = l.getLast?.or (some a) := by
  induction l generalizing a with
  | nil => rfl
  | cons b t ih =>
    rw [List.getLast?_cons_cons, ih b]
    cases t.getLast? <;> rfl

theorem dateStep_eq (search : String → String → Option MatchRes) (pat text : String)
    (st : Option String × Option String) :
    dateStep search pat text st =
      ((dateAssign search pat text).1.or st.1, (dateAssign search pat text).2.or st.2) := by
  unfold dateStep dateAssign
  cases search pat text with
  | none => rfl
  | some r => split_ifs <;> first | rfl | (cases r <;> rfl)

theorem foldl_dateStep (search : String → String → Option MatchRes)
    (l : List (String × String)) (st : Option String × Option String) :
    l.foldl (fun st q => dateStep search q.1 q.2 st) st =
      ((l.filterMap (fun q => (dateAssign search q.1 q.2).1)).getLast?.or st.1,
       (l.filterMap (fun q => (dateAssign search q.1 q.2).2)).getLast?.or st.2) := by
  induction l generalizing st with
  | nil => rfl
  | cons q l ih =>
    rw [List.foldl_cons, ih, dateStep_eq]
    refine Prod.ext ?_ ?_ <;>
      · show _ = (List.filterMap _ (q :: l)).getLast?.or _
        rw [List.filterMap_cons]
        dsimp only
        split
        · next heq =>
          rw [heq]
          rfl
        · next a heq => rw [heq, getLast?_cons_or, optOr_assoc]

theorem foldl_flatMap {β γ σ : Type} (g : β → List γ) (f : σ → γ → σ) (l : List β) (init : σ) :
    (l.flatMap g).foldl f init = l.foldl (fun st b => (g b).foldl f st) init := by
  induction l generalizing init with
  | nil => rfl
  | cons b l ih => simp [List.flatMap_cons, List.foldl_append, ih]

/-- C7: the date extractor applies every pattern to every paragraph with no
early exit, assigning by pattern identity ("start" in the pattern text sets
the start date, "end" sets the end date, a two-group match sets both), and
the returned start (resp. end) date is the one assigned by the last matching
(pattern, paragraph) pair in forward scan order. -/
theorem date_extractor_last_match (search : String → String → Option MatchRes)
    (paragraphs : List String) :
    extract_campaign_dates search paragraphs =
      (((dateScanPairs paragraphs).filterMap
          (fun q => (dateAssign search q.1 q.2).1)).getLast?,
       ((dateScanPairs paragraphs).filterMap
          (fun q => (dateAssign search q.1 q.2).2)).getLast?) := by
  have h1 : (dateScanPairs paragraphs).foldl (fun st q => dateStep search q.1 q.2 st)
      (none, none) = extract_campaign_dates search paragraphs := by
    unfold extract_campaign_dates dateScanPairs
    rw [foldl_flatMap]
    simp only [List.foldl_map]
  rw [← h1, foldl_dateStep]
  rw [optOr_none, optOr_none]

/-- C2, counterexample: with two consecutive strategy headings the detected
strategy index is 1, the last match, not the first; and a strategy heading
placed after the checklist marker is never seen by the strategy scan, since
the first checklist match stops the whole loop. -/
theorem boundary_first_match_cex :
    detectBoundaries ["strategy explainer:", "strategy explainer:"] = (some 1, none) ∧
    isStrategyHeading "strategy explainer:" = true ∧
    (some 1 : Option Nat) ≠ some 0 ∧
    detectBoundaries ["creative checklist", "strategy explainer:"] = (none, some 0) := by
  decide

theorem optSome_or (a : α) (b : Option α) : (some a).or b = some a :=
  rfl

theorem findBoundaries_eq (l : List String) : ∀ (i : Nat) (acc : Option Nat),
    findBoundaries l i acc =
      ((((l.take (scanStop l)).enumFrom i).filterMap
          (fun p => if isStrategyHeading p.2 then some p.1 else none)).getLast?.or acc,
       (firstChecklistIdx l).map (· + i)) := by
  induction l with
  | nil => intro i acc; rfl
  | cons t rest ih =>
    intro i acc
    cases hchk : isChecklistHeading t with
    | true =>
      have hstop : scanStop (t :: rest) = 1 := by
        unfold scanStop
        simp [firstChecklistIdx, hchk]
      rw [hstop]
      cases hstrat : isStrategyHeading t <;>
        simp [findBoundaries, hchk, hstrat, firstChecklistIdx, List.take_succ_cons,
          List.enumFrom, List.filterMap_cons]
    | false =>
      have hfci : firstChecklistIdx (t :: rest) = (firstChecklistIdx rest).map (· + 1) := by
        simp [firstChecklistIdx, hchk]
      have hstop : scanStop (t :: rest) = scanStop rest + 1 := by
        unfold scanStop
        rw [hfci]
        cases h : firstChecklistIdx rest <;> simp [h]
      have hlhs : findBoundaries (t :: rest) i acc =
          findBoundaries rest (i + 1) (if isStrategyHeading t then some i else acc) := by
        simp [findBoundaries, hchk]
      rw [hlhs, ih, hfci, hstop, List.take_succ_cons]
      have henum : List.enumFrom i (t :: rest.take (scanStop rest)) =
          (i, t) :: List.enumFrom (i + 1) (rest.take (scanStop rest)) := rfl
      rw [henum, List.filterMap_cons]
      refine Prod.ext ?_ ?_
      · cases hstrat : isStrategyHeading t <;>
          simp [hstrat, getLast?_cons_or, optOr_assoc, optSome_or]
      · cases h : firstChecklistIdx rest
        · simp [h]
        · simp [h]
          omega

/-- C2, amended: boundary detection sets the checklist index to the first
checklist marker and the strategy index to the last strategy-pattern match
among the scanned elements, where the scan covers everything up to and
including the first checklist marker (the whole list when there is none):
the strategy index is the last match, not the first, and elements after the
first checklist marker are examined by neither scan. -/
theorem boundary_scan_characterization (elems : List String) :
    detectBoundaries elems = (lastStrategyIdx elems, firstChecklistIdx elems) := by
  unfold detectBoundaries lastStrategyIdx
  rw [findBoundaries_eq, optOr_none]
  refine Prod.ext rfl ?_
  cases h : firstChecklistIdx elems <;> simp [h]

theorem lowerChar_fix : ∀ kv ∈ upperLowerPairs, lowerChar kv.2 = kv.2 := by
  decide

theorem lowerChar_space : ∀ kv ∈ upperLowerPairs,
    isPySpace kv.1 = false ∧ isPySpace kv.2 = false := by
  decide

theorem lowerChar_idem (c : Char) : lowerChar (lowerChar c) = lowerChar c := by
  cases h : upperLowerPairs.find? (fun kv => kv.1 = c) with
  | none =>
    have hc : lowerChar c = c := by
      unfold lowerChar
      rw [h]
      rfl
    rw [hc]
    exact hc
  | some kv =>
    have hc : lowerChar c = kv.2 := by
      unfold lowerChar
      rw [h]
      rfl
    rw [hc]
    exact lowerChar_fix kv (List.mem_of_find?_eq_some h)

theorem isPySpace_lowerChar (c : Char) : isPySpace (lowerChar c) = isPySpace c := by
  cases h : upperLowerPairs.find? (fun kv => kv.1 = c) with
  | none =>
    have hc : lowerChar c = c := by
      unfold lowerChar
      rw [h]
      rfl
    rw [hc]
  | some kv =>
    have hc : lowerChar c = kv.2 := by
      unfold lowerChar
      rw [h]
      rfl
    have hk : kv.1 = c := by
      have hp := List.find?_some h
      simpa using hp
    rw [hc, ← hk, (lowerChar_space kv (List.mem_of_find?_eq_some h)).1,
      (lowerChar_space kv (List.mem_of_find?_eq_some h)).2]

theorem pyLower_idem (s : String) : pyLower (pyLower s) = pyLower s := by
  show String.mk ((s.data.map lowerChar).map lowerChar) = String.mk (s.data.map lowerChar)
  rw [List.map_map]
  have hcomp : lowerChar ∘ lowerChar = lowerChar := funext lowerChar_idem
  rw [hcomp]

theorem dropWhile_map_lower (x : List Char) :
    (x.map lowerChar).dropWhile isPySpace = (x.dropWhile isPySpace).map lowerChar := by
  rw [List.dropWhile_map]
  have hcomp : isPySpace ∘ lowerChar = isPySpace := funext isPySpace_lowerChar
  rw [hcomp]

theorem rdropWhile_map_lower (x : List Char) :
    List.rdropWhile isPySpace (x.map lowerChar) = (List.rdropWhile isPySpace x).map lowerChar := by
  unfold List.rdropWhile
  rw [← List.map_reverse, dropWhile_map_lower, ← List.map_reverse]

theorem stripChars_map_lower (l : List Char) :
    stripChars (l.map lowerChar) = (stripChars l).map lowerChar := by
  unfold stripChars
  rw [dropWhile_map_lower, rdropWhile_map_lower]

theorem pyLower_pyStrip_comm (s : String) : pyLower (pyStrip s) = pyStrip (pyLower s) := by
  show String.mk ((stripChars s.data).map lowerChar) = String.mk (stripChars (s.data.map lowerChar))
  rw [stripChars_map_lower]

theorem dropWhile_rdropWhile_self (l : List Char) (h : l.dropWhile isPySpace = l) :
    (List.rdropWhile isPySpace l).dropWhile isPySpace = List.rdropWhile isPySpace l := by
  obtain ⟨t, ht⟩ := List.rdropWhile_prefix isPySpace l
  cases hB : List.rdropWhile isPySpace l with
  | nil => rfl
  | cons b B =>
    rw [hB] at ht
    have hA : l = b :: (B ++ t) := by
      rw [← ht]
      rfl
    have hpb : isPySpace b = false := by
      cases hx : isPySpace b
      · rfl
      · exfalso
        have h2 := h
        rw [hA, List.dropWhile_cons_of_pos hx] at h2
        have hlen := List.Sublist.length_le (List.dropWhile_sublist (l := B ++ t) isPySpace)
        rw [h2] at hlen
        simp at hlen
    exact List.dropWhile_cons_of_neg (by simp [hpb])

theorem stripChars_idem (l : List Char) : stripChars (stripChars l) = stripChars l := by
  have h1 : (stripChars l).dropWhile isPySpace = stripChars l :=
    dropWhile_rdropWhile_self _ (List.dropWhile_idempotent _ _)
  show List.rdropWhile isPySpace ((stripChars l).dropWhile isPySpace) = stripChars l
  rw [h1]
  show List.rdropWhile isPySpace (List.rdropWhile isPySpace (l.dropWhile isPySpace)) =
    stripChars l
  rw [List.rdropWhile_idempotent]
  rfl

theorem pyStrip_idem (s : String) : pyStrip (pyStrip s) = pyStrip s := by
  show String.mk (stripChars (stripChars s.data)) = String.mk (stripChars s.data)
  rw [stripChars_idem]

theorem canon_idem (s : String) :
    pyStrip (pyLower (pyStrip (pyLower s))) = pyStrip (pyLower s) := by
  rw [pyLower_pyStrip_comm, pyLower_idem, pyStrip_idem]

theorem normalize_fix : ∀ kv ∈ CHANNEL_NORMALIZATIONS, normalize_channel_name kv.2 = kv.2 := by
  decide

/-- C10: `normalize_channel_name` is idempotent — every canonical value of
the normalization table is already lower-cased and trimmed and is either
absent from the keys or maps to itself, and the lower-case/trim prefix is
itself idempotent. -/
theorem normalize_channel_name_idem (s : String) :
    normalize_channel_name (normalize_channel_name s) = normalize_channel_name s := by
  cases h : CHANNEL_NORMALIZATIONS.find? (fun kv => kv.1 = pyStrip (pyLower s)) with
  | none =>
    have hval : normalize_channel_name s = pyStrip (pyLower s) := by
      show ((CHANNEL_NORMALIZATIONS.find?
          (fun kv => kv.1 = pyStrip (pyLower s))).map Prod.snd).getD (pyStrip (pyLower s)) =
        pyStrip (pyLower s)
      rw [h]
      rfl
    rw [hval]
    show ((CHANNEL_NORMALIZATIONS.find?
        (fun kv => kv.1 = pyStrip (pyLower (pyStrip (pyLower s))))).map Prod.snd).getD
          (pyStrip (pyLower (pyStrip (pyLower s)))) =
      pyStrip (pyLower s)
    rw [canon_idem, h]
    rfl
  | some kv =>
    have hval : normalize_channel_name s = kv.2 := by
      show ((CHANNEL_NORMALIZATIONS.find?
          (fun kv => kv.1 = pyStrip (pyLower s))).map Prod.snd).getD (pyStrip (pyLower s)) =
        kv.2
      rw [h]
      rfl
    rw [hval]
    exact normalize_fix kv (List.mem_of_find?_eq_some h)
